import Mathlib

/-!
Shallow embedding of the ModuForge-RS performance-metrics scripts
(`scripts/performance_metrics.py` and `scripts/regression_detector.py`).

Modelling conventions:
* Python `int` is `Int`; Python `float` arithmetic is modelled by exact
  rational arithmetic (`ℚ`); none of the verified properties sits on a
  floating-point rounding boundary.
* SQLite tables are lists of row structures in rowid order; `INSERT`
  appends, `INSERT OR REPLACE` deletes the conflicting rows and appends,
  and a statement that violates a `UNIQUE` constraint raises
  `sqlite3.IntegrityError`, modelled as `PyError.integrityError` (the
  whole statement is rolled back, so the table value is unchanged).
* A Python exception that propagates out of a function is modelled by
  `Except.error`; division by zero raises `PyError.zeroDivision`
  (Python `ZeroDivisionError`).
* Timestamps are the ISO strings the scripts store; SQLite compares TEXT
  columns bytewise, modelled by `String` order.
-/

/-- Python exceptions that can escape the modelled functions:
`ZeroDivisionError` from percent computation and `sqlite3.IntegrityError`
from a violated `UNIQUE` constraint. -/
inductive PyError where
  | zeroDivision
  | integrityError
  deriving Repr, DecidableEq

namespace PerformanceMetrics

/-- `BenchmarkResult` dataclass of `performance_metrics.py`; `metadata` is
stored as its JSON serialisation, so the row carries `metadata_json`. -/
structure BenchmarkResult where
  crate_name : String
  benchmark_name : String
  duration_ns : Int
  memory_usage_bytes : Int
  cpu_utilization_percent : ℚ
  timestamp : String
  git_commit : Option String
  metadata_json : Option String
  deriving Repr, DecidableEq

/-- Row of the `performance_baselines` table, which carries
`UNIQUE(crate_name, benchmark_name, is_active)` and `is_active` defaulting
to 1. -/
structure BaselineRow where
  crate_name : String
  benchmark_name : String
  baseline_duration_ns : Int
  baseline_timestamp : String
  git_commit : Option String
  is_active : Bool
  deriving Repr, DecidableEq

/-- Row of the append-only `regression_alerts` table (`resolved` defaults
to 0). -/
structure AlertRow where
  crate_name : String
  benchmark_name : String
  current_duration_ns : Int
  baseline_duration_ns : Int
  regression_percent : ℚ
  severity : String
  timestamp : String
  git_commit : Option String
  resolved : Bool
  deriving Repr, DecidableEq

/-- The alert dict built by `RegressionDetector.detect_regressions`; unlike
the persisted row it also carries `baseline_commit`. -/
structure Alert where
  crate_name : String
  benchmark_name : String
  current_duration_ns : Int
  baseline_duration_ns : Int
  regression_percent : ℚ
  severity : String
  timestamp : String
  git_commit : Option String
  baseline_commit : Option String
  deriving Repr, DecidableEq

/-- Identity triple used by `UNIQUE(crate_name, benchmark_name, timestamp)`
on `benchmark_results`. -/
def tripleOf (r : BenchmarkResult) : String × String × String :=
  (r.crate_name, r.benchmark_name, r.timestamp)

/-- Boolean test that two results collide on the storage identity triple. -/
def sameTriple (a b : BenchmarkResult) : Bool :=
  a.crate_name == b.crate_name && a.benchmark_name == b.benchmark_name &&
    a.timestamp == b.timestamp

/-- One `INSERT OR REPLACE INTO benchmark_results` statement: rows that
collide on the `UNIQUE` triple are deleted and the incoming row is inserted
with a fresh rowid (at the end). -/
def insertRow (table : List BenchmarkResult) (r : BenchmarkResult) :
    List BenchmarkResult :=
  table.filter (fun row => !(sameTriple row r)) ++ [r]

/-- `PerformanceDatabase.insert_results`: upserts each result in order. -/
def insert_results (table : List BenchmarkResult)
    (results : List BenchmarkResult) : List BenchmarkResult :=
  results.foldl insertRow table

/-- `PerformanceDatabase.get_baseline`: the first (and, by the `UNIQUE`
constraint, only) active baseline row for the pair, if any. -/
def get_baseline (table : List BaselineRow) (crate_name benchmark_name : String) :
    Option (Int × Option String) :=
  (table.find? (fun row =>
      row.crate_name == crate_name && row.benchmark_name == benchmark_name &&
        row.is_active)).map
    (fun row => (row.baseline_duration_ns, row.git_commit))

/-- Key of the `UNIQUE(crate_name, benchmark_name, is_active)` index on
`performance_baselines`. -/
def baselineKey (b : BaselineRow) : String × String × Bool :=
  (b.crate_name, b.benchmark_name, b.is_active)

/-- The `UPDATE performance_baselines SET is_active = 0 WHERE crate_name = ?
AND benchmark_name = ?` statement.  SQLite visits rows in rowid order; a row
whose unique-index key actually changes is checked against every other row,
and a collision aborts the whole statement with `IntegrityError` (statement
rollback: the table is left unchanged, which the caller models by keeping
the old list). -/
def updateDeactivate (crate_name benchmark_name : String)
    (done : List BaselineRow) :
    List BaselineRow → Except PyError (List BaselineRow)
  | [] => .ok done
  | row :: rest =>
    if row.crate_name == crate_name && row.benchmark_name == benchmark_name &&
        row.is_active then
      let row2 := { row with is_active := false }
      if (done ++ rest).any (fun other => baselineKey other == baselineKey row2) then
        .error .integrityError
      else
        updateDeactivate crate_name benchmark_name (done ++ [row2]) rest
    else
      updateDeactivate crate_name benchmark_name (done ++ [row]) rest

/-- `PerformanceDatabase.set_baseline`: deactivate the existing baselines for
the pair, then insert a new row (whose `is_active` takes the column default
1).  Either statement can raise `sqlite3.IntegrityError` because of
`UNIQUE(crate_name, benchmark_name, is_active)`; the exception propagates
(there is no try/except) and nothing is committed. -/
def set_baseline (table : List BaselineRow) (crate_name benchmark_name : String)
    (duration_ns : Int) (now git_commit : String) :
    Except PyError (List BaselineRow) :=
  match updateDeactivate crate_name benchmark_name [] table with
  | .error e => .error e
  | .ok table2 =>
    let newRow : BaselineRow :=
      { crate_name := crate_name, benchmark_name := benchmark_name,
        baseline_duration_ns := duration_ns, baseline_timestamp := now,
        git_commit := some git_commit, is_active := true }
    if table2.any (fun other => baselineKey other == baselineKey newRow) then
      .error .integrityError
    else
      .ok (table2 ++ [newRow])

/-- `RegressionDetector._get_severity`. -/
def get_severity (change_percent : ℚ) : String :=
  if change_percent ≥ 50 then "CRITICAL"
  else if change_percent ≥ 25 then "HIGH"
  else if change_percent ≥ 15 then "MEDIUM"
  else "LOW"

/-- `RegressionDetector._save_alert`: appends to `regression_alerts`
(`resolved` defaults to 0; `baseline_commit` is not a column and is
dropped). -/
def save_alert (table : List AlertRow) (a : Alert) : List AlertRow :=
  table ++ [{ crate_name := a.crate_name, benchmark_name := a.benchmark_name,
              current_duration_ns := a.current_duration_ns,
              baseline_duration_ns := a.baseline_duration_ns,
              regression_percent := a.regression_percent,
              severity := a.severity, timestamp := a.timestamp,
              git_commit := a.git_commit, resolved := false }]

/-- One iteration of the loop in `RegressionDetector.detect_regressions`:
skip when no active baseline exists, raise `ZeroDivisionError` when the
baseline duration is 0, and otherwise emit and persist an alert exactly
when the change percentage exceeds the threshold. -/
def detect_step (baselines : List BaselineRow) (threshold_percent : ℚ)
    (acc : List Alert × List AlertRow) (result : BenchmarkResult) :
    Except PyError (List Alert × List AlertRow) :=
  match get_baseline baselines result.crate_name result.benchmark_name with
  | none => .ok acc
  | some (baseline_duration, baseline_commit) =>
    if baseline_duration = 0 then .error .zeroDivision
    else
      let change_percent : ℚ :=
        ((result.duration_ns : ℚ) - (baseline_duration : ℚ)) /
          (baseline_duration : ℚ) * 100
      if change_percent > threshold_percent then
        let a : Alert :=
          { crate_name := result.crate_name,
            benchmark_name := result.benchmark_name,
            current_duration_ns := result.duration_ns,
            baseline_duration_ns := baseline_duration,
            regression_percent := change_percent,
            severity := get_severity change_percent,
            timestamp := result.timestamp,
            git_commit := result.git_commit,
            baseline_commit := baseline_commit }
        .ok (acc.1 ++ [a], save_alert acc.2 a)
      else .ok acc

/-- `RegressionDetector.detect_regressions`: fold `detect_step` over the
incoming results, returning the alert list and the updated
`regression_alerts` table.  An exception mid-loop propagates; alerts saved
by earlier iterations were already committed, but the claims below only
exercise the error case on single-record inputs, where no partial state
exists. -/
def detect_regressions (baselines : List BaselineRow) (threshold_percent : ℚ)
    (alertTable : List AlertRow) (results : List BenchmarkResult) :
    Except PyError (List Alert × List AlertRow) :=
  results.foldlM (detect_step baselines threshold_percent) ([], alertTable)

/-- The `ORDER BY timestamp` relation of the trend-report query (TEXT
columns compare bytewise). -/
def tsLE (a b : BenchmarkResult) : Prop := a.timestamp ≤ b.timestamp

instance : DecidableRel tsLE :=
  fun a b => inferInstanceAs (Decidable (a.timestamp ≤ b.timestamp))

/-- The `WHERE crate_name = ? AND timestamp BETWEEN ? AND ? ORDER BY
timestamp` query feeding `generate_trend_report` (a stable sort of the
matching rows). -/
def queryWindow (table : List BenchmarkResult)
    (crate_name startTs endTs : String) : List BenchmarkResult :=
  List.insertionSort tsLE
    (table.filter (fun r => r.crate_name == crate_name &&
      startTs ≤ r.timestamp && r.timestamp ≤ endTs))

/-- Order-preserving deduplication, mirroring pandas `Series.unique`
(first occurrence wins). -/
def uniqueFirst (l : List String) : List String :=
  l.foldl (fun acc a => if acc.contains a then acc else acc ++ [a]) []

/-- Numerator of the ordinary-least-squares slope of `ys` against sample
index `0..n-1`: `n·Σ i·yᵢ − (Σ i)·(Σ yᵢ)`.  `scipy.stats.linregress`
computes the slope as `Σ(xᵢ−x̄)(yᵢ−ȳ) / Σ(xᵢ−x̄)²`, which equals
`slopeNum ys / slopeDen ys` after multiplying both sides by `n`. -/
def slopeNum (ys : List ℚ) : ℚ :=
  (ys.length : ℚ) * (∑ i ∈ Finset.range ys.length, (i : ℚ) * ys.getD i 0) -
    (∑ i ∈ Finset.range ys.length, (i : ℚ)) *
      (∑ i ∈ Finset.range ys.length, ys.getD i 0)

/-- Denominator of the least-squares slope: `n·Σ i² − (Σ i)²`. -/
def slopeDen (ys : List ℚ) : ℚ :=
  (ys.length : ℚ) * (∑ i ∈ Finset.range ys.length, (i : ℚ) * (i : ℚ)) -
    (∑ i ∈ Finset.range ys.length, (i : ℚ)) *
      (∑ i ∈ Finset.range ys.length, (i : ℚ))

/-- Slope returned by `stats.linregress(x, durations)` with
`x = np.arange(len(durations))`. -/
def linregressSlope (ys : List ℚ) : ℚ := slopeNum ys / slopeDen ys

/-- Trend fields added to a benchmark's stats when it has at least two
samples.  `trend_p_value` comes from `scipy.stats.linregress`; that
two-sided Student-t p-value is an external-library computation and is kept
abstract as the function parameter `pval` of the analyzer below — every
claim about it only concerns how the flags depend on its output. -/
structure TrendInfo where
  trend_slope : ℚ
  trend_p_value : ℚ
  is_improving : Bool
  is_degrading : Bool
  deriving Repr, DecidableEq

/-- Per-benchmark statistics of `generate_trend_report`.  The source also
computes `median_ns`, `std_ns`, `min_ns` and `max_ns`; no claim mentions
them (and `std_ns` is an irrational square root), so they are omitted
here. -/
structure BenchStats where
  count : Nat
  mean_ns : ℚ
  trend : Option TrendInfo
  deriving Repr, DecidableEq

/-- Stats computed for one benchmark group of the trend report: descriptive
statistics always, trend fields only for groups with at least 2 samples,
with `is_improving = slope < 0` and
`is_degrading = slope > 0 and p_value < 0.05`. -/
def benchStats (pval : List ℚ → ℚ) (durations : List ℚ) : BenchStats :=
  { count := durations.length
    mean_ns := durations.sum / (durations.length : ℚ)
    trend :=
      if 2 ≤ durations.length then
        some { trend_slope := linregressSlope durations
               trend_p_value := pval durations
               is_improving := decide (linregressSlope durations < 0)
               is_degrading := decide (0 < linregressSlope durations) &&
                 decide (pval durations < 5 / 100) }
      else none }

/-- Return value of `PerformanceAnalyzer.generate_trend_report`: either the
explicit `{'error': ...}` payload or the report dict. -/
inductive TrendReport where
  | err (msg : String)
  | report (crate_name : String) (total_benchmarks total_runs : Nat)
      (benchmarks : List (String × BenchStats))
  deriving Repr

/-- `PerformanceAnalyzer.generate_trend_report`: query the window, return
the error payload when the frame is empty, otherwise group by benchmark
name (first-appearance order, as pandas `unique`) and compute stats per
group. -/
def generate_trend_report (table : List BenchmarkResult)
    (crate_name startTs endTs : String) (pval : List ℚ → ℚ) : TrendReport :=
  let df := queryWindow table crate_name startTs endTs
  if df.isEmpty then .err ("没有找到 " ++ crate_name ++ " 的数据")
  else
    let names := uniqueFirst (df.map (fun r => r.benchmark_name))
    .report crate_name names.length df.length
      (names.map (fun b =>
        (b, benchStats pval
          ((df.filter (fun r => r.benchmark_name == b)).map
            (fun r => (r.duration_ns : ℚ))))))

/-- Distinct `(crate_name, benchmark_name)` pairs among the rows tagged
with a version identifier — the groups of the
`SELECT ... AVG(duration_ns) ... WHERE git_commit = ? GROUP BY crate_name,
benchmark_name` query of `generate_comparison_report`. -/
def pairsOf (table : List BenchmarkResult) (commit : String) :
    List (String × String) :=
  ((table.filter (fun r => r.git_commit == some commit)).map
    (fun r => (r.crate_name, r.benchmark_name))).dedup

/-- `AVG(duration_ns)` over the rows of one version for one pair. -/
def avgDuration (table : List BenchmarkResult) (commit : String)
    (p : String × String) : ℚ :=
  let rows := table.filter (fun r => r.git_commit == some commit &&
    r.crate_name == p.1 && r.benchmark_name == p.2)
  (rows.map (fun r => (r.duration_ns : ℚ))).sum / (rows.length : ℚ)

/-- The pairs surviving the inner `pd.merge` on
`['crate_name', 'benchmark_name']`: those present under both version
identifiers. -/
def mergedPairs (table : List BenchmarkResult) (base current : String) :
    List (String × String) :=
  (pairsOf table base).filter (fun p => (pairsOf table current).contains p)

/-- The merged frame's `change_percent` column for one pair:
`(avg_current − avg_base) / avg_base * 100`. -/
def changePercent (table : List BenchmarkResult) (base current : String)
    (p : String × String) : ℚ :=
  (avgDuration table current p - avgDuration table base p) /
    avgDuration table base p * 100

/-- Summary counters of `generate_comparison_report` (the `details` list is
the merged frame itself and is not needed by any claim). -/
structure ComparisonReport where
  total_comparisons : Nat
  improvements : Nat
  regressions : Nat
  stable : Nat
  deriving Repr, DecidableEq

/-- `PerformanceAnalyzer.generate_comparison_report`: count the merged
pairs with `change_percent < -5` (improvements), `> 5` (regressions) and
`|change_percent| ≤ 5` (stable). -/
def generate_comparison_report (table : List BenchmarkResult)
    (base current : String) : ComparisonReport :=
  let merged := mergedPairs table base current
  { total_comparisons := merged.length
    improvements := (merged.filter (fun p =>
      decide (changePercent table base current p < -5))).length
    regressions := (merged.filter (fun p =>
      decide (5 < changePercent table base current p))).length
    stable := (merged.filter (fun p =>
      decide (|changePercent table base current p| ≤ 5))).length }

end PerformanceMetrics

namespace SimpleDetector

/-- The result dicts consumed by `regression_detector.py`; only the three
keys the detector reads are modelled. -/
structure SimpleRecord where
  crate_name : String
  benchmark_name : String
  duration_ns : Int
  deriving Repr, DecidableEq

/-- `RegressionAlert` dataclass of `regression_detector.py`. -/
structure RegressionAlert where
  crate_name : String
  benchmark_name : String
  current_duration_ns : Int
  baseline_duration_ns : Int
  change_percent : ℚ
  severity : String
  deriving Repr, DecidableEq

/-- The lookup key `f"{crate_name}/{benchmark_name}"`. -/
def recordKey (r : SimpleRecord) : String :=
  r.crate_name ++ "/" ++ r.benchmark_name

/-- One Python dict assignment `d[k] = v`: overwrite in place when the key
is present (keeping its position, as Python dicts preserve insertion
order), else append. -/
def dict_insert (d : List (String × Int)) (k : String) (v : Int) :
    List (String × Int) :=
  if d.any (fun p => p.1 == k) then
    d.map (fun p => if p.1 == k then (k, v) else p)
  else d ++ [(k, v)]

/-- Python dict lookup `d.get(k)` on the association-list model. -/
def dict_get (d : List (String × Int)) (k : String) : Option Int :=
  (d.find? (fun p => p.1 == k)).map (fun p => p.2)

/-- The `baseline_lookup` dict built by
`SimpleRegressionDetector.detect_regressions`: later entries overwrite
earlier ones with the same key. -/
def build_baseline_lookup (baseline_results : List SimpleRecord) :
    List (String × Int) :=
  baseline_results.foldl
    (fun d r => dict_insert d (recordKey r) r.duration_ns) []

/-- `SimpleRegressionDetector._get_severity` (identical to the
`performance_metrics.py` copy). -/
def get_severity (change_percent : ℚ) : String :=
  if change_percent ≥ 50 then "CRITICAL"
  else if change_percent ≥ 25 then "HIGH"
  else if change_percent ≥ 15 then "MEDIUM"
  else "LOW"

/-- One iteration of the loop over `current_results`. -/
def detect_step (lookup : List (String × Int)) (threshold_percent : ℚ)
    (alerts : List RegressionAlert) (current : SimpleRecord) :
    Except PyError (List RegressionAlert) :=
  match dict_get lookup (recordKey current) with
  | none => .ok alerts
  | some baseline_duration =>
    if baseline_duration = 0 then .error .zeroDivision
    else
      let change_percent : ℚ :=
        ((current.duration_ns : ℚ) - (baseline_duration : ℚ)) /
          (baseline_duration : ℚ) * 100
      if change_percent > threshold_percent then
        .ok (alerts ++
          [{ crate_name := current.crate_name,
             benchmark_name := current.benchmark_name,
             current_duration_ns := current.duration_ns,
             baseline_duration_ns := baseline_duration,
             change_percent := change_percent,
             severity := get_severity change_percent }])
      else .ok alerts

/-- The relation of the final
`sorted(alerts, key=lambda x: x.change_percent, reverse=True)`. -/
def alertGE (a b : RegressionAlert) : Prop :=
  b.change_percent ≤ a.change_percent

instance : DecidableRel alertGE :=
  fun a b => inferInstanceAs (Decidable (b.change_percent ≤ a.change_percent))

instance : IsTotal RegressionAlert alertGE :=
  ⟨fun a b => le_total b.change_percent a.change_percent⟩

instance : IsTrans RegressionAlert alertGE :=
  ⟨fun _ _ _ h1 h2 => le_trans h2 h1⟩

/-- `SimpleRegressionDetector.detect_regressions`: build the lookup, scan
the current results, and return the alerts sorted by `change_percent`
descending.  Python's `sorted` is a stable sort, so any stable sort
denotes it exactly; `List.insertionSort` is stable. -/
def detect_regressions (threshold_percent : ℚ)
    (current_results baseline_results : List SimpleRecord) :
    Except PyError (List RegressionAlert) :=
  match current_results.foldlM
      (detect_step (build_baseline_lookup baseline_results) threshold_percent)
      [] with
  | .error e => .error e
  | .ok alerts => .ok (List.insertionSort alertGE alerts)

end SimpleDetector

open PerformanceMetrics SimpleDetector

/-- Projection of a detector run to the `(regression_percent, severity)`
pairs of the returned alert list, for stating concrete evaluations. -/
def alertSummaries (x : Except PyError (List Alert × List AlertRow)) :
    Option (List (ℚ × String)) :=
  match x with
  | .error _ => none
  | .ok (alerts, _) =>
    some (alerts.map (fun a => (a.regression_percent, a.severity)))

/-- Baseline table used by the C3 evaluation: one active 100 ns baseline. -/
def c3_baselines : List BaselineRow :=
  [{ crate_name := "moduforge-core", benchmark_name := "bench_insert",
     baseline_duration_ns := 100, baseline_timestamp := "t0",
     git_commit := some "g0", is_active := true }]

/-- Record constructor used by the C3 evaluation. -/
def c3_rec (d : Int) (ts : String) : BenchmarkResult :=
  { crate_name := "moduforge-core", benchmark_name := "bench_insert",
    duration_ns := d, memory_usage_bytes := 0,
    cpu_utilization_percent := 0, timestamp := ts,
    git_commit := some "g1", metadata_json := none }

/-- Baseline table left by the first `set_baseline` call of the C2 run. -/
def c2_table1 : List BaselineRow :=
  [{ crate_name := "mf-state", benchmark_name := "apply_tx",
     baseline_duration_ns := 100, baseline_timestamp := "t1",
     git_commit := some "g1", is_active := true }]

/-- Baseline table left by the second `set_baseline` call of the C2 run:
the superseded row stays with `is_active = 0` next to the new active row. -/
def c2_table2 : List BaselineRow :=
  [{ crate_name := "mf-state", benchmark_name := "apply_tx",
     baseline_duration_ns := 100, baseline_timestamp := "t1",
     git_commit := some "g1", is_active := false },
   { crate_name := "mf-state", benchmark_name := "apply_tx",
     baseline_duration_ns := 200, baseline_timestamp := "t2",
     git_commit := some "g2", is_active := true }]

/-- Baseline table for the C4 evaluation. -/
def c4_baselines : List BaselineRow :=
  [{ crate_name := "mf-transform", benchmark_name := "apply_steps",
     baseline_duration_ns := 100, baseline_timestamp := "t0",
     git_commit := some "g0", is_active := true }]

/-- Record constructor for the C4 evaluation. -/
def c4_rec (d : Int) (ts : String) : BenchmarkResult :=
  { crate_name := "mf-transform", benchmark_name := "apply_steps",
    duration_ns := d, memory_usage_bytes := 0,
    cpu_utilization_percent := 0, timestamp := ts,
    git_commit := some "g1", metadata_json := none }

/-- Store for the C5 witness: two rows with distinct identity triples. -/
def c5_table : List BenchmarkResult :=
  [{ crate_name := "mf-core", benchmark_name := "b1", duration_ns := 100,
     memory_usage_bytes := 0, cpu_utilization_percent := 0,
     timestamp := "t1", git_commit := some "g1", metadata_json := none },
   { crate_name := "mf-core", benchmark_name := "b2", duration_ns := 200,
     memory_usage_bytes := 0, cpu_utilization_percent := 0,
     timestamp := "t1", git_commit := some "g1", metadata_json := none }]

/-- Re-inserted record for the C5 witness: the identity triple of the first
`c5_table` row with a new duration. -/
def c5_renew : BenchmarkResult :=
  { crate_name := "mf-core", benchmark_name := "b1", duration_ns := 150,
    memory_usage_bytes := 0, cpu_utilization_percent := 0,
    timestamp := "t1", git_commit := some "g2", metadata_json := none }

/-- One row of the C6 store. -/
def c6_row (bench : String) (d : Int) (ts commit : String) : BenchmarkResult :=
  { crate_name := "mf-core", benchmark_name := bench, duration_ns := d,
    memory_usage_bytes := 0, cpu_utilization_percent := 0,
    timestamp := ts, git_commit := some commit, metadata_json := none }

/-- Store for the C6 evaluation: benchmarks A and B measured under both
version identifiers `v1` and `v2`, benchmark C only under `v2`. -/
def c6_table : List BenchmarkResult :=
  [c6_row "A" 100 "t1" "v1", c6_row "B" 100 "t2" "v1",
   c6_row "A" 96 "t3" "v2", c6_row "B" 106 "t4" "v2",
   c6_row "C" 50 "t5" "v2"]

/-! ## Claim theorems -/

/-- C1: the spec requires a record whose `(crate, benchmark)` pair has an
active baseline with `baseline_duration_ns = 0` to fail with an explicit
`InvalidRecordError`; the code defines no such error and no guard, and
`RegressionDetector.detect_regressions` raises an unhandled
`ZeroDivisionError` at the percent computation. -/
theorem c1_zero_baseline_raises_zero_division :
    PerformanceMetrics.detect_regressions
      [{ crate_name := "moduforge-core", benchmark_name := "bench_insert",
         baseline_duration_ns := 0, baseline_timestamp := "t0",
         git_commit := some "g0", is_active := true }] 10 []
      [{ crate_name := "moduforge-core", benchmark_name := "bench_insert",
         duration_ns := 100, memory_usage_bytes := 0,
         cpu_utilization_percent := 0, timestamp := "t1",
         git_commit := some "g1", metadata_json := none }]
    = .error .zeroDivision := rfl

/-- C2: the first two `set_baseline` calls for a pair behave as claimed
(the second leaves exactly one active row), but the third call violates
`UNIQUE(crate_name, benchmark_name, is_active)` while deactivating both
existing rows and raises `sqlite3.IntegrityError`, leaving the second
baseline active instead of installing the third. -/
theorem c2_third_set_baseline_fails :
    set_baseline [] "mf-state" "apply_tx" 100 "t1" "g1" = .ok c2_table1
    ∧ set_baseline c2_table1 "mf-state" "apply_tx" 200 "t2" "g2" = .ok c2_table2
    ∧ (c2_table2.filter (fun b => b.crate_name == "mf-state" &&
        b.benchmark_name == "apply_tx" && b.is_active)).length = 1
    ∧ set_baseline c2_table2 "mf-state" "apply_tx" 300 "t3" "g3"
        = .error .integrityError :=
  ⟨rfl, rfl, rfl, rfl⟩

/-- C3: with threshold 10, current durations 105/116/130/160 against a
100 ns baseline produce no alert, MEDIUM, HIGH and CRITICAL respectively;
in general a record with a nonzero active baseline yields an alert exactly
when its change percentage exceeds the threshold, with severity computed
by the `>=50 / >=25 / >=15 / else` bands. -/
theorem c3_severity_bands :
    alertSummaries (PerformanceMetrics.detect_regressions c3_baselines 10 []
        [c3_rec 105 "t1", c3_rec 116 "t2", c3_rec 130 "t3", c3_rec 160 "t4"])
      = some [(16, "MEDIUM"), (30, "HIGH"), (60, "CRITICAL")]
    ∧ (∀ cp : ℚ, 50 ≤ cp → PerformanceMetrics.get_severity cp = "CRITICAL")
    ∧ (∀ cp : ℚ, 25 ≤ cp → cp < 50 →
        PerformanceMetrics.get_severity cp = "HIGH")
    ∧ (∀ cp : ℚ, 15 ≤ cp → cp < 25 →
        PerformanceMetrics.get_severity cp = "MEDIUM")
    ∧ (∀ cp : ℚ, cp < 15 → PerformanceMetrics.get_severity cp = "LOW")
    ∧ (∀ (baselines : List BaselineRow) (threshold : ℚ) (accA : List Alert)
         (accT : List AlertRow) (r : BenchmarkResult) (bdur : Int)
         (bcommit : Option String),
         get_baseline baselines r.crate_name r.benchmark_name
             = some (bdur, bcommit) →
         bdur ≠ 0 →
         (((r.duration_ns : ℚ) - (bdur : ℚ)) / (bdur : ℚ) * 100 ≤ threshold →
            PerformanceMetrics.detect_step baselines threshold (accA, accT) r
              = .ok (accA, accT))
         ∧ (threshold < ((r.duration_ns : ℚ) - (bdur : ℚ)) / (bdur : ℚ) * 100 →
            ∃ a : Alert,
              PerformanceMetrics.detect_step baselines threshold (accA, accT) r
                  = .ok (accA ++ [a], save_alert accT a)
              ∧ a.regression_percent
                  = ((r.duration_ns : ℚ) - (bdur : ℚ)) / (bdur : ℚ) * 100
              ∧ a.severity = PerformanceMetrics.get_severity
                  (((r.duration_ns : ℚ) - (bdur : ℚ)) / (bdur : ℚ) * 100))) := by
  refine ⟨?_, ?_, ?_, ?_, ?_, ?_⟩
  · norm_num [PerformanceMetrics.detect_regressions,
      PerformanceMetrics.detect_step, get_baseline,
      PerformanceMetrics.get_severity, save_alert, c3_baselines, c3_rec,
      List.foldlM, alertSummaries]
    rfl
  · intro cp h
    simp only [PerformanceMetrics.get_severity]
    rw [if_pos (by linarith)]
  · intro cp h1 h2
    simp only [PerformanceMetrics.get_severity]
    rw [if_neg (by linarith), if_pos (by linarith)]
  · intro cp h1 h2
    simp only [PerformanceMetrics.get_severity]
    rw [if_neg (by linarith), if_neg (by linarith), if_pos (by linarith)]
  · intro cp h
    simp only [PerformanceMetrics.get_severity]
    rw [if_neg (by linarith), if_neg (by linarith), if_neg (by linarith)]
  · intro baselines threshold accA accT r bdur bcommit hbase hne
    constructor
    · intro hle
      simp [PerformanceMetrics.detect_step, hbase, hne, not_lt.mpr hle]
    · intro hgt
      refine ⟨{ crate_name := r.crate_name, benchmark_name := r.benchmark_name,
                current_duration_ns := r.duration_ns,
                baseline_duration_ns := bdur,
                regression_percent :=
                  ((r.duration_ns : ℚ) - (bdur : ℚ)) / (bdur : ℚ) * 100,
                severity := PerformanceMetrics.get_severity
                  (((r.duration_ns : ℚ) - (bdur : ℚ)) / (bdur : ℚ) * 100),
                timestamp := r.timestamp, git_commit := r.git_commit,
                baseline_commit := bcommit }, ?_, rfl, rfl⟩
      simp [PerformanceMetrics.detect_step, hbase, hne, hgt]

/-- Witness for C3: the threshold and band hypotheses are satisfiable at
concrete change percentages. -/
theorem c3_witness :
    PerformanceMetrics.get_severity 60 = "CRITICAL"
    ∧ PerformanceMetrics.get_severity 16 = "MEDIUM" :=
  ⟨c3_severity_bands.2.1 60 (by norm_num),
   c3_severity_bands.2.2.2.1 16 (by norm_num) (by norm_num)⟩

/-- A fold of `detect_step` over records that all lack an active baseline
leaves the accumulator untouched. -/
theorem foldlM_detect_step_skip (baselines : List BaselineRow) (threshold : ℚ)
    (results : List BenchmarkResult)
    (h : ∀ r ∈ results,
      get_baseline baselines r.crate_name r.benchmark_name = none) :
    ∀ acc, results.foldlM
        (PerformanceMetrics.detect_step baselines threshold) acc = .ok acc := by
  induction results with
  | nil => intro acc; rfl
  | cons r rs ih =>
    intro acc
    have h1 : get_baseline baselines r.crate_name r.benchmark_name = none :=
      h r (by simp)
    have hstep : PerformanceMetrics.detect_step baselines threshold acc r
        = .ok acc := by
      simp [PerformanceMetrics.detect_step, h1]
    rw [List.foldlM_cons, hstep]
    exact ih (fun x hx => h x (by simp [hx])) acc

/-- C8: a record whose pair has no active baseline is skipped by both
detectors — no alert is emitted, nothing is persisted, and no error is
raised; in particular a whole batch of such records yields the empty alert
list and an unchanged `regression_alerts` table. -/
theorem c8_missing_baseline_skips :
    (∀ (baselines : List BaselineRow) (threshold : ℚ) (tbl : List AlertRow)
       (results : List BenchmarkResult),
       (∀ r ∈ results,
         get_baseline baselines r.crate_name r.benchmark_name = none) →
       PerformanceMetrics.detect_regressions baselines threshold tbl results
         = .ok ([], tbl))
    ∧ (∀ (lookup : List (String × Int)) (threshold : ℚ)
         (alerts : List RegressionAlert) (c : SimpleRecord),
         dict_get lookup (recordKey c) = none →
         SimpleDetector.detect_step lookup threshold alerts c = .ok alerts) := by
  constructor
  · intro baselines threshold tbl results h
    exact foldlM_detect_step_skip baselines threshold results h ([], tbl)
  · intro lookup threshold alerts c h
    simp [SimpleDetector.detect_step, h]

/-- Witness for C8: a concrete record over an empty baseline table is
skipped without error. -/
theorem c8_witness :
    PerformanceMetrics.detect_regressions [] 10 []
      [{ crate_name := "moduforge-model", benchmark_name := "node_build",
         duration_ns := 100, memory_usage_bytes := 0,
         cpu_utilization_percent := 0, timestamp := "t1",
         git_commit := none, metadata_json := none }]
    = .ok ([], []) :=
  c8_missing_baseline_skips.1 [] 10 [] _ (fun _ _ => rfl)

/-- C9: when the queried window holds no measurement for the requested
crate, `generate_trend_report` returns the explicit `{'error': ...}`
payload rather than crashing. -/
theorem c9_empty_window_error_payload (table : List BenchmarkResult)
    (crate_name startTs endTs : String) (pval : List ℚ → ℚ)
    (h : queryWindow table crate_name startTs endTs = []) :
    generate_trend_report table crate_name startTs endTs pval
      = .err ("没有找到 " ++ crate_name ++ " 的数据") := by
  simp [generate_trend_report, h]

/-- Witness for C9: an empty store matches no window, so the report for any
crate is the error payload. -/
theorem c9_witness :
    generate_trend_report [] "moduforge-rules" "2025-01-01" "2025-01-31"
      (fun _ => 0) = .err ("没有找到 " ++ "moduforge-rules" ++ " 的数据") :=
  c9_empty_window_error_payload [] "moduforge-rules" "2025-01-01"
    "2025-01-31" (fun _ => 0) rfl

/-- C4 counterexample: `RegressionDetector.detect_regressions` in
`performance_metrics.py` returns alerts in input order without sorting:
records with changes +20% then +60% yield the alert list
[(20, MEDIUM), (60, CRITICAL)], which is not sorted by `change_percent`
descending (that would require 60 ≤ 20). -/
theorem c4_counterexample :
    alertSummaries (PerformanceMetrics.detect_regressions c4_baselines 10 []
        [c4_rec 120 "t1", c4_rec 160 "t2"])
      = some [(20, "MEDIUM"), (60, "CRITICAL")]
    ∧ ¬ ((60 : ℚ) ≤ 20) := by
  constructor
  · norm_num [PerformanceMetrics.detect_regressions,
      PerformanceMetrics.detect_step, get_baseline,
      PerformanceMetrics.get_severity, save_alert, c4_baselines, c4_rec,
      List.foldlM, alertSummaries]
    rfl
  · norm_num

/-- C4 (amended): the sorted-descending output contract holds for
`SimpleRegressionDetector.detect_regressions` in `regression_detector.py`
(whose final `sorted(..., reverse=True)` implements it); every successful
run returns an alert list sorted by `change_percent` descending. -/
theorem c4_simple_detector_sorted (threshold : ℚ)
    (current baseline : List SimpleRecord) (alerts : List RegressionAlert)
    (h : SimpleDetector.detect_regressions threshold current baseline
        = .ok alerts) :
    List.Sorted alertGE alerts := by
  rw [SimpleDetector.detect_regressions] at h
  cases hf : current.foldlM
      (SimpleDetector.detect_step (build_baseline_lookup baseline) threshold)
      [] with
  | error e => rw [hf] at h; cases h
  | ok l =>
    rw [hf] at h
    simp only [Except.ok.injEq] at h
    rw [← h]
    exact List.sorted_insertionSort alertGE l

/-- Witness for C4: a run of the simple detector on concrete (empty) inputs
succeeds and its output is sorted. -/
theorem c4_witness :
    List.Sorted alertGE ([] : List RegressionAlert) :=
  c4_simple_detector_sorted 10 [] [] [] rfl

/-- Overwriting every entry holding key `k` rewrites the first hit of a
lookup for `k` to the new value. -/
theorem find?_map_overwrite (d : List (String × Int)) (k : String) (v : Int)
    (h : d.any (fun p => p.1 == k) = true) :
    (d.map (fun p => if p.1 == k then (k, v) else p)).find?
        (fun p => p.1 == k) = some (k, v) := by
  induction d with
  | nil => cases h
  | cons p rest ih =>
    by_cases hp : (p.1 == k) = true
    · rw [List.map_cons, if_pos hp]
      simp only [List.find?_cons]
      simp
    · have h2 : rest.any (fun p => p.1 == k) = true := by
        simpa [List.any_cons, hp] using h
      have hp2 : (p.1 == k) = false := by simpa using hp
      rw [List.map_cons, if_neg hp]
      simp only [List.find?_cons, hp2]
      exact ih h2

/-- Overwriting the entries holding key `k2` does not change a lookup for a
different key `k`. -/
theorem find?_map_other (d : List (String × Int)) (k2 : String) (v : Int)
    (k : String) (hne : k ≠ k2) :
    (d.map (fun p => if p.1 == k2 then (k2, v) else p)).find?
        (fun p => p.1 == k) = d.find? (fun p => p.1 == k) := by
  induction d with
  | nil => rfl
  | cons p rest ih =>
    by_cases hp : (p.1 == k2) = true
    · have hp2 : p.1 = k2 := by simpa using hp
      have hpk : (p.1 == k) = false := by simp [hp2, Ne.symm hne]
      have hk2k : ((k2 : String) == k) = false := by simp [Ne.symm hne]
      rw [List.map_cons, if_pos hp]
      simp only [List.find?_cons, hpk, hk2k]
      exact ih
    · rw [List.map_cons, if_neg hp]
      cases hpk : (p.1 == k) with
      | true => simp only [List.find?_cons, hpk]
      | false =>
        simp only [List.find?_cons, hpk]
        exact ih

/-- Python dict-assignment semantics of `dict_insert` as seen through
`dict_get`: the assigned key now maps to the new value and every other key
is untouched. -/
theorem dict_get_insert (d : List (String × Int)) (k2 : String) (v : Int)
    (k : String) :
    dict_get (dict_insert d k2 v) k
      = if k = k2 then some v else dict_get d k := by
  by_cases hk : k = k2
  · subst hk
    rw [if_pos rfl]
    unfold dict_insert
    by_cases hany : d.any (fun p => p.1 == k) = true
    · rw [if_pos hany]
      unfold dict_get
      rw [find?_map_overwrite d k v hany, Option.map_some']
    · rw [if_neg hany]
      have hfind : d.find? (fun p => p.1 == k) = none := by
        rw [List.find?_eq_none]
        intro p hp hcontra
        exact hany (List.any_of_mem hp hcontra)
      unfold dict_get
      rw [List.find?_append, hfind, Option.none_or]
      simp only [List.find?_cons]
      simp
  · rw [if_neg hk]
    unfold dict_insert
    by_cases hany : d.any (fun p => p.1 == k2) = true
    · rw [if_pos hany]
      unfold dict_get
      rw [find?_map_other d k2 v k hk]
    · rw [if_neg hany]
      have hk2 : ((k2 : String) == k) = false := by
        simp [Ne.symm hk]
      unfold dict_get
      rw [List.find?_append]
      simp only [List.find?_cons, hk2]
      rw [show List.find? (fun p : String × Int => p.1 == k) [] = none from rfl,
        Option.or_none]

/-- Folding dict insertions over records: a lookup returns the duration of
the last record whose concatenated key matches, falling back to the
initial dict. -/
theorem dict_get_foldl_insert (bs : List SimpleRecord) (k : String) :
    ∀ d, dict_get
        (bs.foldl (fun acc r => dict_insert acc (recordKey r) r.duration_ns) d) k
      = (((bs.filter (fun b => recordKey b == k)).getLast?).map
          (fun b => b.duration_ns)).or (dict_get d k) := by
  induction bs with
  | nil => intro d; simp
  | cons b rest ih =>
    intro d
    rw [List.foldl_cons, ih (dict_insert d (recordKey b) b.duration_ns),
      dict_get_insert]
    by_cases hb : (recordKey b == k) = true
    · have hk : k = recordKey b := ((beq_iff_eq).mp hb).symm
      rw [if_pos hk, List.filter_cons, if_pos hb]
      cases hfe : rest.filter (fun y => recordKey y == k) with
      | nil => rfl
      | cons y ys =>
        rw [List.getLast?_cons_cons]
        cases hgl : (y :: ys).getLast? with
        | none => simp at hgl
        | some x => rfl
    · have hk : ¬ k = recordKey b := fun he =>
        hb ((beq_iff_eq).mpr he.symm)
      rw [if_neg hk, List.filter_cons, if_neg hb]

/-- C10 counterexample: the lookup key is the concatenation
`crate_name + "/" + benchmark_name`, so the distinct pair `("a/b", "c")`
collides with `("a", "b/c")`.  With baseline entries for `("a", "b/c")` at
100 then 150 followed by an entry for `("a/b", "c")` at 200, the record
`("a", "b/c", 330)` is compared against 200 — not against 150, the last
entry with the same pair, as the claim states. -/
theorem c10_counterexample :
    SimpleDetector.detect_regressions 10
      [{ crate_name := "a", benchmark_name := "b/c", duration_ns := 330 }]
      [{ crate_name := "a", benchmark_name := "b/c", duration_ns := 100 },
       { crate_name := "a", benchmark_name := "b/c", duration_ns := 150 },
       { crate_name := "a/b", benchmark_name := "c", duration_ns := 200 }]
      = .ok [{ crate_name := "a", benchmark_name := "b/c",
               current_duration_ns := 330, baseline_duration_ns := 200,
               change_percent := 65, severity := "CRITICAL" }]
    ∧ (200 : Int) ≠ 150 := by
  constructor
  · norm_num [SimpleDetector.detect_regressions, SimpleDetector.detect_step,
      build_baseline_lookup, dict_insert, dict_get, recordKey,
      SimpleDetector.get_severity, List.foldlM,
      show ("a" ++ "/" ++ "b/c" : String) = "a/b" ++ "/" ++ "c" from rfl]
  · decide

/-- C10 (amended): the baseline duration the simple detector compares a
record against is the one of the last baseline entry in list order whose
concatenated `crate/benchmark` key matches the record's; whenever no
distinct pair shares that concatenated key (the claim's scenario), this is
exactly the last baseline entry with the same
`(crate_name, benchmark_name)` pair, earlier duplicates being ignored. -/
theorem c10_last_duplicate_wins (baseline : List SimpleRecord)
    (r : SimpleRecord)
    (hcol : ∀ b ∈ baseline, recordKey b = recordKey r →
      b.crate_name = r.crate_name ∧ b.benchmark_name = r.benchmark_name) :
    dict_get (build_baseline_lookup baseline) (recordKey r)
      = ((baseline.filter (fun b => b.crate_name == r.crate_name &&
          b.benchmark_name == r.benchmark_name)).getLast?).map
          (fun b => b.duration_ns) := by
  unfold build_baseline_lookup
  rw [dict_get_foldl_insert baseline (recordKey r) [],
    show dict_get [] (recordKey r) = none from rfl, Option.or_none]
  have hfilter : baseline.filter (fun b => recordKey b == recordKey r)
      = baseline.filter (fun b => b.crate_name == r.crate_name &&
          b.benchmark_name == r.benchmark_name) := by
    apply List.filter_congr
    intro b hbmem
    by_cases h : recordKey b = recordKey r
    · obtain ⟨h1, h2⟩ := hcol b hbmem h
      simp [h, h1, h2]
    · have hpair : ¬ (b.crate_name = r.crate_name ∧
          b.benchmark_name = r.benchmark_name) := by
        rintro ⟨h1, h2⟩
        exact h (by simp [recordKey, h1, h2])
      have hcr : (b.crate_name == r.crate_name &&
          b.benchmark_name == r.benchmark_name) = false := by
        rcases not_and_or.mp hpair with h1 | h1 <;> simp [h1]
      simp [h, hcr]
  rw [hfilter]

/-- Witness for C10: with duplicate baseline entries for one pair and no
key collision, the lookup resolves to the last entry's duration. -/
theorem c10_witness :
    dict_get (build_baseline_lookup
        [{ crate_name := "mf-core", benchmark_name := "apply",
           duration_ns := 100 },
         { crate_name := "mf-core", benchmark_name := "apply",
           duration_ns := 150 }])
      (recordKey { crate_name := "mf-core", benchmark_name := "apply",
                   duration_ns := 300 }) = some 150 :=
  (c10_last_duplicate_wins _ _ (by decide)).trans rfl

/-- `sameTriple` is the Boolean form of identity-triple equality. -/
theorem sameTriple_iff (a b : BenchmarkResult) :
    sameTriple a b = true ↔ tripleOf a = tripleOf b := by
  simp [sameTriple, tripleOf, Prod.ext_iff, and_assoc]

/-- An upsert leaves exactly the incoming row on its identity triple: the
prior row is replaced by the new field values and no duplicate is
created. -/
theorem insertRow_replaces (t : List BenchmarkResult) (r : BenchmarkResult) :
    (insertRow t r).filter (fun row => sameTriple row r) = [r] := by
  rw [insertRow, List.filter_append, List.filter_filter]
  have h1 : t.filter (fun a => sameTriple a r && !sameTriple a r) = [] := by
    apply List.filter_eq_nil_iff.mpr
    intro a _
    simp
  have h2 : [r].filter (fun row => sameTriple row r) = [r] := by
    simp [List.filter_cons, (sameTriple_iff r r).mpr rfl]
  rw [h1, h2, List.nil_append]

/-- Upserting a row whose triple is already present in a duplicate-free
table keeps the number of rows. -/
theorem insertRow_length (t : List BenchmarkResult) (r : BenchmarkResult)
    (hnd : (t.map tripleOf).Nodup) (hmem : tripleOf r ∈ t.map tripleOf) :
    (insertRow t r).length = t.length := by
  induction t with
  | nil => simp at hmem
  | cons a rest ih =>
    rw [List.map_cons, List.nodup_cons] at hnd
    obtain ⟨hna, hnr⟩ := hnd
    by_cases ha : sameTriple a r = true
    · have htr : tripleOf a = tripleOf r := (sameTriple_iff a r).mp ha
      have hrest : rest.filter (fun row => !(sameTriple row r)) = rest := by
        apply List.filter_eq_self.mpr
        intro x hx
        cases hsx : sameTriple x r with
        | false => rfl
        | true =>
          exact absurd
            (htr ▸ ((sameTriple_iff x r).mp hsx) ▸ List.mem_map_of_mem tripleOf hx)
            hna
      rw [insertRow, List.filter_cons]
      rw [show (!(sameTriple a r)) = false by simp [ha], if_neg (by simp)]
      rw [hrest]
      simp
    · have hmem2 : tripleOf r ∈ rest.map tripleOf := by
        rcases List.mem_cons.mp hmem with h | h
        · exact absurd ((sameTriple_iff a r).mpr h.symm) (by simp [ha])
        · exact h
      have := ih hnr hmem2
      rw [insertRow] at this
      rw [insertRow, List.filter_cons,
        show (!(sameTriple a r)) = true by simp [ha], if_pos rfl]
      simp only [List.cons_append, List.length_cons]
      omega

/-- An upsert preserves freedom from duplicate identity triples. -/
theorem insertRow_nodup (t : List BenchmarkResult) (r : BenchmarkResult)
    (hnd : (t.map tripleOf).Nodup) :
    ((insertRow t r).map tripleOf).Nodup := by
  rw [insertRow, List.map_append, List.nodup_append]
  refine ⟨?_, by simp, ?_⟩
  · exact hnd.sublist (List.Sublist.map tripleOf (List.filter_sublist t))
  · intro x hx hxr
    have hxr2 : x = tripleOf r := by simpa using hxr
    obtain ⟨row, hrow, hxeq⟩ := List.mem_map.mp hx
    obtain ⟨_, hkeep⟩ := List.mem_filter.mp hrow
    have : sameTriple row r = true :=
      (sameTriple_iff row r).mpr (hxeq.trans hxr2)
    simp [this] at hkeep

/-- An upsert can only add the incoming triple: every triple present before
is still present. -/
theorem insertRow_mem_triples (t : List BenchmarkResult)
    (r s : BenchmarkResult) (h : tripleOf s ∈ t.map tripleOf) :
    tripleOf s ∈ (insertRow t r).map tripleOf := by
  by_cases he : tripleOf s = tripleOf r
  · rw [insertRow, List.map_append]
    exact List.mem_append_right _ (by simp [he])
  · obtain ⟨row, hrow, heq⟩ := List.mem_map.mp h
    have hkeep : row ∈ t.filter (fun row => !(sameTriple row r)) := by
      apply List.mem_filter.mpr
      refine ⟨hrow, ?_⟩
      cases hsx : sameTriple row r with
      | false => rfl
      | true =>
        exact absurd (heq ▸ (sameTriple_iff row r).mp hsx) he
    rw [insertRow, List.map_append]
    exact List.mem_append_left _ (heq ▸ List.mem_map_of_mem tripleOf hkeep)

/-- Batch form: re-inserting records whose triples are all present keeps
the table size and its duplicate-freedom. -/
theorem insert_results_of_present (results : List BenchmarkResult) :
    ∀ table : List BenchmarkResult, (table.map tripleOf).Nodup →
    (∀ r ∈ results, tripleOf r ∈ table.map tripleOf) →
    (insert_results table results).length = table.length
    ∧ ((insert_results table results).map tripleOf).Nodup := by
  induction results with
  | nil => intro table h1 _; exact ⟨rfl, h1⟩
  | cons r rs ih =>
    intro table h1 h2
    have hmem := h2 r (by simp)
    have hlen := insertRow_length table r h1 hmem
    have hnd2 := insertRow_nodup table r h1
    have hpres2 : ∀ x ∈ rs, tripleOf x ∈ (insertRow table r).map tripleOf :=
      fun x hx => insertRow_mem_triples table r x (h2 x (by simp [hx]))
    obtain ⟨l1, l2⟩ := ih (insertRow table r) hnd2 hpres2
    rw [insert_results, List.foldl_cons]
    rw [insert_results] at l1 l2
    exact ⟨l1.trans hlen, l2⟩

/-- C5: storage identity is the triple (crate, benchmark, timestamp) —
an upsert replaces the colliding row with the new field values and never
duplicates, and re-inserting any batch of records whose triples are
already present leaves the store size (and triple-uniqueness) unchanged. -/
theorem c5_upsert_idempotent (table results : List BenchmarkResult)
    (hnd : (table.map tripleOf).Nodup)
    (hpresent : ∀ r ∈ results, tripleOf r ∈ table.map tripleOf) :
    (insert_results table results).length = table.length
    ∧ ((insert_results table results).map tripleOf).Nodup
    ∧ ∀ (t : List BenchmarkResult) (r : BenchmarkResult),
        (insertRow t r).filter (fun row => sameTriple row r) = [r] := by
  obtain ⟨h1, h2⟩ := insert_results_of_present results table hnd hpresent
  exact ⟨h1, h2, fun t r => insertRow_replaces t r⟩

/-- Witness for C5: re-inserting a record with an existing triple and new
field values keeps the two-row store at two rows. -/
theorem c5_witness :
    (insert_results c5_table [c5_renew]).length = c5_table.length
    ∧ (insertRow c5_table c5_renew).filter
        (fun row => sameTriple row c5_renew) = [c5_renew] :=
  ⟨(c5_upsert_idempotent c5_table [c5_renew] (by decide) (by decide)).1,
   (c5_upsert_idempotent c5_table [c5_renew] (by decide) (by decide)).2.2
     c5_table c5_renew⟩

/-- The C6 merged frame: only A and B are present under both versions. -/
theorem c6_merged : mergedPairs c6_table "v1" "v2"
    = [("mf-core", "A"), ("mf-core", "B")] := by decide

/-- Average v1 duration of A in the C6 store. -/
theorem c6_avg_v1A : avgDuration c6_table "v1" ("mf-core", "A") = 100 := by
  rw [avgDuration,
    show c6_table.filter (fun r => r.git_commit == some "v1" &&
        r.crate_name == ("mf-core", "A").1 &&
        r.benchmark_name == ("mf-core", "A").2)
      = [c6_row "A" 100 "t1" "v1"] from by decide]
  norm_num [c6_row]

/-- Average v2 duration of A in the C6 store. -/
theorem c6_avg_v2A : avgDuration c6_table "v2" ("mf-core", "A") = 96 := by
  rw [avgDuration,
    show c6_table.filter (fun r => r.git_commit == some "v2" &&
        r.crate_name == ("mf-core", "A").1 &&
        r.benchmark_name == ("mf-core", "A").2)
      = [c6_row "A" 96 "t3" "v2"] from by decide]
  norm_num [c6_row]

/-- Average v1 duration of B in the C6 store. -/
theorem c6_avg_v1B : avgDuration c6_table "v1" ("mf-core", "B") = 100 := by
  rw [avgDuration,
    show c6_table.filter (fun r => r.git_commit == some "v1" &&
        r.crate_name == ("mf-core", "B").1 &&
        r.benchmark_name == ("mf-core", "B").2)
      = [c6_row "B" 100 "t2" "v1"] from by decide]
  norm_num [c6_row]

/-- Average v2 duration of B in the C6 store. -/
theorem c6_avg_v2B : avgDuration c6_table "v2" ("mf-core", "B") = 106 := by
  rw [avgDuration,
    show c6_table.filter (fun r => r.git_commit == some "v2" &&
        r.crate_name == ("mf-core", "B").1 &&
        r.benchmark_name == ("mf-core", "B").2)
      = [c6_row "B" 106 "t4" "v2"] from by decide]
  norm_num [c6_row]

/-- A changes by −4 % between the two C6 versions. -/
theorem c6_changeA : changePercent c6_table "v1" "v2" ("mf-core", "A") = -4 := by
  rw [changePercent, c6_avg_v1A, c6_avg_v2A]
  norm_num

/-- B changes by +6 % between the two C6 versions. -/
theorem c6_changeB : changePercent c6_table "v1" "v2" ("mf-core", "B") = 6 := by
  rw [changePercent, c6_avg_v1B, c6_avg_v2B]
  norm_num

/-- Bucket counts of the C6 comparison report. -/
theorem c6_report : generate_comparison_report c6_table "v1" "v2"
    = { total_comparisons := 2, improvements := 0, regressions := 1,
        stable := 1 } := by
  simp only [generate_comparison_report, c6_merged, List.filter_cons,
    List.filter_nil, c6_changeA, c6_changeB]
  norm_num

/-- C6 counterexample: with base {A:100, B:100} and current {A:96, B:106},
A's change is −4 %, which is inside the ±5 stability band, so the
comparison report counts zero improvements — A is not reported as an
improvement as the claim states. -/
theorem c6_counterexample :
    changePercent c6_table "v1" "v2" ("mf-core", "A") = -4
    ∧ (generate_comparison_report c6_table "v1" "v2").improvements = 0 :=
  ⟨c6_changeA, by rw [c6_report]⟩

/-- C6 (amended): A (−4 %) is reported stable, B (+6 %) is the single
regression, and C — present only under the current version — is excluded
from the merged comparison entirely; in general a pair absent from either
version's groups never reaches the merged frame, and classification is
improvement iff change < −5, regression iff change > 5, stable iff
|change| ≤ 5. -/
theorem c6_comparison_partitioning :
    generate_comparison_report c6_table "v1" "v2"
      = { total_comparisons := 2, improvements := 0, regressions := 1,
          stable := 1 }
    ∧ changePercent c6_table "v1" "v2" ("mf-core", "A") = -4
    ∧ changePercent c6_table "v1" "v2" ("mf-core", "B") = 6
    ∧ |changePercent c6_table "v1" "v2" ("mf-core", "A")| ≤ 5
    ∧ 5 < changePercent c6_table "v1" "v2" ("mf-core", "B")
    ∧ ("mf-core", "C") ∉ mergedPairs c6_table "v1" "v2"
    ∧ (∀ (t : List BenchmarkResult) (base current : String)
         (p : String × String),
         (p ∉ pairsOf t base ∨ p ∉ pairsOf t current) →
         p ∉ mergedPairs t base current) := by
  refine ⟨c6_report, c6_changeA, c6_changeB, ?_, ?_, ?_, ?_⟩
  · rw [c6_changeA]; norm_num
  · rw [c6_changeB]; norm_num
  · rw [c6_merged]; decide
  · intro t base current p hp hmem
    obtain ⟨h1, h2⟩ := List.mem_filter.mp hmem
    rcases hp with h | h
    · exact h h1
    · exact h (by simpa using h2)

/-- Witness for C6: the exclusion hypothesis holds at a concrete pair that
is present under neither version of an empty store. -/
theorem c6_witness :
    ("mf-core", "C") ∉ mergedPairs [] "v1" "v2" :=
  c6_comparison_partitioning.2.2.2.2.2.2 [] "v1" "v2" ("mf-core", "C")
    (Or.inl (by simp [pairsOf]))

/-- Algebraic identity behind the least-squares slope sign: the symmetric
double sum of products of differences equals twice the covariance-style
numerator. -/
theorem double_sum_expand (n : ℕ) (x y : ℕ → ℚ) :
    ∑ i ∈ Finset.range n, ∑ j ∈ Finset.range n, (x i - x j) * (y i - y j)
      = 2 * ((n : ℚ) * (∑ i ∈ Finset.range n, x i * y i)
          - (∑ i ∈ Finset.range n, x i) * (∑ i ∈ Finset.range n, y i)) := by
  have inner : ∀ i, ∑ j ∈ Finset.range n, (x i - x j) * (y i - y j)
      = (n : ℚ) * (x i * y i) - x i * (∑ j ∈ Finset.range n, y j)
        - (∑ j ∈ Finset.range n, x j) * y i
        + (∑ j ∈ Finset.range n, x j * y j) := by
    intro i
    have expand : ∀ j : ℕ, (x i - x j) * (y i - y j)
        = x i * y i - x i * y j - x j * y i + x j * y j := fun j => by ring
    simp_rw [expand]
    simp only [Finset.sum_add_distrib, Finset.sum_sub_distrib,
      ← Finset.mul_sum, ← Finset.sum_mul, Finset.sum_const,
      Finset.card_range, nsmul_eq_mul]
    ring
  rw [Finset.sum_congr rfl (fun i _ => inner i)]
  simp only [Finset.sum_add_distrib, Finset.sum_sub_distrib,
    ← Finset.mul_sum, ← Finset.sum_mul, Finset.sum_const,
    Finset.card_range, nsmul_eq_mul]
  ring

/-- For two sequences strictly increasing on `0..n-1` with `n ≥ 2`, the
symmetric double sum of products of differences is strictly positive. -/
theorem double_sum_pos (n : ℕ) (hn : 2 ≤ n) (x y : ℕ → ℚ)
    (hx : ∀ i j, i < j → j < n → x i < x j)
    (hy : ∀ i j, i < j → j < n → y i < y j) :
    0 < ∑ i ∈ Finset.range n, ∑ j ∈ Finset.range n,
        (x i - x j) * (y i - y j) := by
  have hterm : ∀ i ∈ Finset.range n, ∀ j ∈ Finset.range n,
      0 ≤ (x i - x j) * (y i - y j) := by
    intro i hi j hj
    rw [Finset.mem_range] at hi hj
    rcases lt_trichotomy i j with h | h | h
    · exact le_of_lt (mul_pos_of_neg_of_neg (sub_neg.mpr (hx i j h hj))
        (sub_neg.mpr (hy i j h hj)))
    · subst h; simp
    · exact le_of_lt (mul_pos (sub_pos.mpr (hx j i h hi))
        (sub_pos.mpr (hy j i h hi)))
  apply Finset.sum_pos'
  · intro i hi
    exact Finset.sum_nonneg (fun j hj => hterm i hi j hj)
  · refine ⟨0, Finset.mem_range.mpr (by omega), ?_⟩
    apply Finset.sum_pos' (fun j hj => hterm 0 (Finset.mem_range.mpr (by omega)) j hj)
    refine ⟨1, Finset.mem_range.mpr (by omega), ?_⟩
    exact mul_pos_of_neg_of_neg (sub_neg.mpr (hx 0 1 Nat.one_pos (by omega)))
      (sub_neg.mpr (hy 0 1 Nat.one_pos (by omega)))

/-- The double sum over index/value differences is twice `slopeNum`. -/
theorem slope_sum_identity (ys : List ℚ) :
    ∑ i ∈ Finset.range ys.length, ∑ j ∈ Finset.range ys.length,
        ((i : ℚ) - (j : ℚ)) * (ys.getD i 0 - ys.getD j 0)
      = 2 * slopeNum ys := by
  rw [slopeNum]
  exact double_sum_expand ys.length (fun i => (i : ℚ)) (fun i => ys.getD i 0)

/-- The double sum over squared index differences is twice `slopeDen`. -/
theorem den_sum_identity (ys : List ℚ) :
    ∑ i ∈ Finset.range ys.length, ∑ j ∈ Finset.range ys.length,
        ((i : ℚ) - (j : ℚ)) * ((i : ℚ) - (j : ℚ))
      = 2 * slopeDen ys := by
  rw [slopeDen]
  exact double_sum_expand ys.length (fun i => (i : ℚ)) (fun i => (i : ℚ))

/-- With at least two samples, the least-squares denominator
`n·Σi² − (Σi)²` is strictly positive. -/
theorem slopeDen_pos (ys : List ℚ) (h2 : 2 ≤ ys.length) : 0 < slopeDen ys := by
  have hx : ∀ i j : ℕ, i < j → j < ys.length → (i : ℚ) < (j : ℚ) :=
    fun i j hij _ => by exact_mod_cast hij
  have hpos : 0 < ∑ i ∈ Finset.range ys.length, ∑ j ∈ Finset.range ys.length,
      ((i : ℚ) - (j : ℚ)) * ((i : ℚ) - (j : ℚ)) :=
    double_sum_pos ys.length h2 (fun i => (i : ℚ)) (fun i => (i : ℚ)) hx hx
  rw [den_sum_identity] at hpos
  linarith

/-- A strictly `<`-chained list is strictly increasing in its positional
reads. -/
theorem chain'_lt_getD (ys : List ℚ) (h : List.Chain' (· < ·) ys) :
    ∀ i j, i < j → j < ys.length → ys.getD i 0 < ys.getD j 0 := by
  intro i j hij hj
  have hp := List.chain'_iff_pairwise.mp h
  have hget := List.pairwise_iff_get.mp hp ⟨i, lt_trans hij hj⟩ ⟨j, hj⟩ hij
  rw [List.getD_eq_getElem ys 0 (lt_trans hij hj), List.getD_eq_getElem ys 0 hj]
  simpa using hget

/-- A strictly `>`-chained list is strictly decreasing in its positional
reads. -/
theorem chain'_gt_getD (ys : List ℚ) (h : List.Chain' (· > ·) ys) :
    ∀ i j, i < j → j < ys.length → ys.getD j 0 < ys.getD i 0 := by
  intro i j hij hj
  have hp := List.chain'_iff_pairwise.mp h
  have hget := List.pairwise_iff_get.mp hp ⟨i, lt_trans hij hj⟩ ⟨j, hj⟩ hij
  rw [List.getD_eq_getElem ys 0 (lt_trans hij hj), List.getD_eq_getElem ys 0 hj]
  simpa using hget

/-- A strictly increasing duration sequence has a positive slope
numerator. -/
theorem slopeNum_pos (ys : List ℚ) (h2 : 2 ≤ ys.length)
    (hinc : List.Chain' (· < ·) ys) : 0 < slopeNum ys := by
  have hx : ∀ i j : ℕ, i < j → j < ys.length → (i : ℚ) < (j : ℚ) :=
    fun i j hij _ => by exact_mod_cast hij
  have hpos : 0 < ∑ i ∈ Finset.range ys.length, ∑ j ∈ Finset.range ys.length,
      ((i : ℚ) - (j : ℚ)) * (ys.getD i 0 - ys.getD j 0) :=
    double_sum_pos ys.length h2 (fun i => (i : ℚ)) (fun i => ys.getD i 0) hx
      (chain'_lt_getD ys hinc)
  rw [slope_sum_identity] at hpos
  linarith

/-- A strictly decreasing duration sequence has a negative slope
numerator. -/
theorem slopeNum_neg (ys : List ℚ) (h2 : 2 ≤ ys.length)
    (hdec : List.Chain' (· > ·) ys) : slopeNum ys < 0 := by
  have hx : ∀ i j : ℕ, i < j → j < ys.length → (i : ℚ) < (j : ℚ) :=
    fun i j hij _ => by exact_mod_cast hij
  have hy : ∀ i j : ℕ, i < j → j < ys.length →
      -(ys.getD i 0) < -(ys.getD j 0) :=
    fun i j hij hj => neg_lt_neg (chain'_gt_getD ys hdec i j hij hj)
  have hpos : 0 < ∑ i ∈ Finset.range ys.length, ∑ j ∈ Finset.range ys.length,
      ((i : ℚ) - (j : ℚ)) * (-(ys.getD i 0) - -(ys.getD j 0)) :=
    double_sum_pos ys.length h2 (fun i => (i : ℚ))
      (fun i => -(ys.getD i 0)) hx hy
  have hneg : ∑ i ∈ Finset.range ys.length, ∑ j ∈ Finset.range ys.length,
      ((i : ℚ) - (j : ℚ)) * (-(ys.getD i 0) - -(ys.getD j 0))
      = -(∑ i ∈ Finset.range ys.length, ∑ j ∈ Finset.range ys.length,
          ((i : ℚ) - (j : ℚ)) * (ys.getD i 0 - ys.getD j 0)) := by
    rw [← Finset.sum_neg_distrib]
    apply Finset.sum_congr rfl
    intro i _
    rw [← Finset.sum_neg_distrib]
    exact Finset.sum_congr rfl (fun j _ => by ring)
  rw [hneg, slope_sum_identity] at hpos
  linarith

/-- C7: for any benchmark group with at least two samples, the trend stats
flag `is_improving` exactly when the fitted slope is negative and
`is_degrading` exactly when the slope is positive and the p-value is below
0.05 (for any p-value the statistics library returns); a strictly
increasing duration sequence has positive slope, and a strictly decreasing
one has negative slope and is flagged improving. -/
theorem c7_trend_classification (pval : List ℚ → ℚ) (ys : List ℚ)
    (h2 : 2 ≤ ys.length) :
    (∀ ti : TrendInfo, (benchStats pval ys).trend = some ti →
        ((ti.is_improving = true ↔ ti.trend_slope < 0)
         ∧ (ti.is_degrading = true ↔
             (0 < ti.trend_slope ∧ ti.trend_p_value < 5 / 100))))
    ∧ (List.Chain' (· < ·) ys → 0 < linregressSlope ys)
    ∧ (List.Chain' (· > ·) ys →
        linregressSlope ys < 0
        ∧ (benchStats pval ys).trend.map TrendInfo.is_improving
            = some true) := by
  refine ⟨?_, ?_, ?_⟩
  · intro ti hti
    rw [benchStats] at hti
    simp only [if_pos h2, Option.some.injEq] at hti
    subst hti
    constructor
    · simp [decide_eq_true_iff]
    · simp [Bool.and_eq_true, decide_eq_true_iff]
  · intro hinc
    rw [linregressSlope]
    exact div_pos (slopeNum_pos ys h2 hinc) (slopeDen_pos ys h2)
  · intro hdec
    have hslope : linregressSlope ys < 0 := by
      rw [linregressSlope]
      exact div_neg_of_neg_of_pos (slopeNum_neg ys h2 hdec)
        (slopeDen_pos ys h2)
    refine ⟨hslope, ?_⟩
    rw [benchStats]
    simp [if_pos h2, hslope]

/-- Witness for C7: the concrete strictly increasing sequence 1, 2, 3 has
at least two samples and a positive fitted slope. -/
theorem c7_witness :
    2 ≤ ([1, 2, 3] : List ℚ).length
    ∧ 0 < linregressSlope [1, 2, 3] :=
  ⟨by decide,
   (c7_trend_classification (fun _ => 0) [1, 2, 3] (by decide)).2.1
     (by norm_num [List.chain'_cons])⟩
